import Mathlib

/-!
Shallow embedding of plex2netflix (src/main.go) and proofs about its
reconciliation pipeline: title normalization, Netflix-ID resolution against
the uNoGS search endpoint, and US-availability checking.

Strings are modelled as Lean `String`/`List Char`; Go byte strings in this
program are valid UTF-8, and every character the code inspects is ASCII.
-/

set_option maxRecDepth 10000

deriving instance DecidableEq for Except

namespace P2N

/-- The apostrophe character (ASCII 39), removed by the normalizer. -/
def apos : Char := Char.ofNat 39

/-- Left brace character (ASCII 123). -/
def lbrace : Char := Char.ofNat 123

/-- Right brace character (ASCII 125). -/
def rbrace : Char := Char.ofNat 125

/-- The whitespace predicate of Go `unicode.IsSpace`, used by
`strings.TrimSpace` (main.go line 102): ASCII space characters plus the
Unicode White_Space code points. -/
def goIsSpace (c : Char) : Bool :=
  c.val = 9 || c.val = 10 || c.val = 11 || c.val = 12 || c.val = 13 || c.val = 32 ||
  c.val = 0x85 || c.val = 0xA0 || c.val = 0x1680 ||
  (0x2000 ≤ c.val && c.val ≤ 0x200A) ||
  c.val = 0x2028 || c.val = 0x2029 || c.val = 0x202F || c.val = 0x205F || c.val = 0x3000

/-- Go `strings.TrimSpace` (main.go line 102): drop leading and trailing
whitespace. -/
def goTrim (s : List Char) : List Char :=
  ((s.dropWhile goIsSpace).reverse.dropWhile goIsSpace).reverse

/-- Does this six-character list match the regexp `\(\d{4}\)` exactly? -/
def isYearEnd : List Char → Bool
  | c0 :: c1 :: c2 :: c3 :: c4 :: c5 :: [] =>
    c0 == '(' && c1.isDigit && c2.isDigit && c3.isDigit && c4.isDigit && c5 == ')'
  | _ => false

/-- Does `s` end with a parenthesized 4-digit year? This is where the
anchored regexp `\(\d{4}\)$` (main.go line 96) can match: the pattern has
fixed width 6, so a match is exactly the last six characters. -/
def hasYearSuffix (s : List Char) : Bool := isYearEnd (s.drop (s.length - 6))

/-- `r.ReplaceAllString(title, "")` for `r = \(\d{4}\)$` (main.go line 100):
remove the trailing year suffix when present. -/
def stripYear (s : List Char) : List Char :=
  if hasYearSuffix s then s.take (s.length - 6) else s

/-- `strings.Replace(title, "'", "", -1)` (main.go line 101): remove every
apostrophe. -/
def removeApos (s : List Char) : List Char := s.filter (fun c => c != apos)

/-- The title normalization performed at the start of `findNetflixID`
(main.go lines 96-102): strip a trailing `(YYYY)`, remove apostrophes,
trim whitespace. -/
def normalize (title : String) : String :=
  String.mk (goTrim (removeApos (stripYear title.data)))

/-- The raw title `Schindler's List` (built without an apostrophe literal). -/
def schindlersRaw : String := "Schindler" ++ String.mk [apos] ++ "s List"

example : normalize "Inception (2010)" = "Inception" := by decide
example : normalize schindlersRaw = "Schindlers List" := by decide
example : normalize "Plain Title" = "Plain Title" := by decide
example : normalize "" = "" := by decide
example : normalize "A (2000) " = "A (2000)" := by decide
example : normalize (normalize "A (2000) ") = "A" := by decide

/-! ## JSON values and syntax (model of encoding/json parsing)

`json.Unmarshal` first checks that the input is syntactically valid JSON and
then decodes it into the target Go value.  We model the two phases
separately: `parseJson` is the syntax check (producing a `Json` tree) and
the `decode*` functions below model decoding into the two Go struct types
of main.go. -/

/-- A JSON value.  Numbers are kept as their raw lexeme: the program never
decodes a number, they can only cause decode-time type errors. -/
inductive Json where
  | null
  | bool (b : Bool)
  | num (lexeme : String)
  | str (s : String)
  | arr (xs : List Json)
  | obj (fields : List (String × Json))

/-- JSON insignificant whitespace: space, tab, newline, carriage return. -/
def jsonWs (c : Char) : Bool :=
  c.val = 32 || c.val = 9 || c.val = 10 || c.val = 13

def skipWs (cs : List Char) : List Char := cs.dropWhile jsonWs

/-- Hexadecimal digit value, if any. -/
def hexVal (c : Char) : Option Nat :=
  if '0' ≤ c && c ≤ '9' then some (c.toNat - 48)
  else if 'a' ≤ c && c ≤ 'f' then some (c.toNat - 87)
  else if 'A' ≤ c && c ≤ 'F' then some (c.toNat - 70)
  else none

/-- Body of a JSON string after the opening quote, with escapes as decoded by
encoding/json (invalid surrogate escapes become U+FFFD). -/
def parseStringBody : Nat → List Char → List Char → Option (String × List Char)
  | 0, _, _ => none
  | fuel+1, cs, acc =>
    match cs with
    | [] => none
    | '"' :: rest => some (String.mk acc.reverse, rest)
    | '\\' :: e :: rest =>
      if e = '"' then parseStringBody fuel rest ('"' :: acc)
      else if e = '\\' then parseStringBody fuel rest ('\\' :: acc)
      else if e = '/' then parseStringBody fuel rest ('/' :: acc)
      else if e = 'b' then parseStringBody fuel rest (Char.ofNat 8 :: acc)
      else if e = 'f' then parseStringBody fuel rest (Char.ofNat 12 :: acc)
      else if e = 'n' then parseStringBody fuel rest (Char.ofNat 10 :: acc)
      else if e = 'r' then parseStringBody fuel rest (Char.ofNat 13 :: acc)
      else if e = 't' then parseStringBody fuel rest (Char.ofNat 9 :: acc)
      else if e = 'u' then
        match rest with
        | h1 :: h2 :: h3 :: h4 :: rest' =>
          match hexVal h1, hexVal h2, hexVal h3, hexVal h4 with
          | some v1, some v2, some v3, some v4 =>
            let n := ((v1 * 16 + v2) * 16 + v3) * 16 + v4
            if 0xD800 ≤ n && n ≤ 0xDBFF then
              match rest' with
              | '\\' :: 'u' :: g1 :: g2 :: g3 :: g4 :: rest'' =>
                match hexVal g1, hexVal g2, hexVal g3, hexVal g4 with
                | some w1, some w2, some w3, some w4 =>
                  let m := ((w1 * 16 + w2) * 16 + w3) * 16 + w4
                  if 0xDC00 ≤ m && m ≤ 0xDFFF then
                    let cp := 0x10000 + (n - 0xD800) * 0x400 + (m - 0xDC00)
                    parseStringBody fuel rest'' (Char.ofNat cp :: acc)
                  else parseStringBody fuel rest' (Char.ofNat 0xFFFD :: acc)
                | _, _, _, _ => parseStringBody fuel rest' (Char.ofNat 0xFFFD :: acc)
              | _ => parseStringBody fuel rest' (Char.ofNat 0xFFFD :: acc)
            else if 0xDC00 ≤ n && n ≤ 0xDFFF then
              parseStringBody fuel rest' (Char.ofNat 0xFFFD :: acc)
            else parseStringBody fuel rest' (Char.ofNat n :: acc)
          | _, _, _, _ => none
        | _ => none
      else none
    | c :: rest => if c.toNat < 32 then none else parseStringBody fuel rest (c :: acc)

/-- The integer part of a JSON number: `0` or a nonzero digit followed by
digits. -/
def parseIntPart (cs : List Char) : Option (List Char × List Char) :=
  match cs with
  | '0' :: rest => some (['0'], rest)
  | c :: rest =>
    if '1' ≤ c && c ≤ '9' then
      some (c :: rest.takeWhile Char.isDigit, rest.dropWhile Char.isDigit)
    else none
  | [] => none

/-- A JSON number lexeme: `-?(0|[1-9][0-9]*)(\.[0-9]+)?([eE][+-]?[0-9]+)?`. -/
def parseNumber (cs : List Char) : Option (String × List Char) :=
  let (sign, cs1) := match cs with
    | '-' :: rest => (['-'], rest)
    | _ => (([] : List Char), cs)
  match parseIntPart cs1 with
  | none => none
  | some (intPart, cs2) =>
    let fracRes : Option (List Char × List Char) :=
      match cs2 with
      | '.' :: rest =>
        match rest.takeWhile Char.isDigit with
        | [] => none
        | ds => some ('.' :: ds, rest.dropWhile Char.isDigit)
      | _ => some ([], cs2)
    match fracRes with
    | none => none
    | some (fracPart, cs3) =>
      let expRes : Option (List Char × List Char) :=
        match cs3 with
        | c :: rest =>
          if c = 'e' || c = 'E' then
            let (s2, rest2) := match rest with
              | '+' :: r => (['+'], r)
              | '-' :: r => (['-'], r)
              | _ => (([] : List Char), rest)
            match rest2.takeWhile Char.isDigit with
            | [] => none
            | ds => some (c :: (s2 ++ ds), rest2.dropWhile Char.isDigit)
          else some ([], cs3)
        | [] => some ([], cs3)
      match expRes with
      | none => none
      | some (expPart, cs4) =>
        some (String.mk (sign ++ intPart ++ fracPart ++ expPart), cs4)

mutual

/-- Parse one JSON value (after skipping leading whitespace). -/
def parseValue : Nat → List Char → Option (Json × List Char)
  | 0, _ => none
  | fuel+1, cs =>
    match skipWs cs with
    | 'n' :: 'u' :: 'l' :: 'l' :: rest => some (.null, rest)
    | 't' :: 'r' :: 'u' :: 'e' :: rest => some (.bool true, rest)
    | 'f' :: 'a' :: 'l' :: 's' :: 'e' :: rest => some (.bool false, rest)
    | c :: rest =>
      if c = '"' then
        match parseStringBody (rest.length + 1) rest [] with
        | some (s, rest') => some (.str s, rest')
        | none => none
      else if c = '[' then parseArrayStart fuel rest
      else if c = lbrace then parseObjStart fuel rest
      else
        match parseNumber (c :: rest) with
        | some (s, rest') => some (.num s, rest')
        | none => none
    | [] => none

/-- Parse the remainder of an array, right after `[`. -/
def parseArrayStart : Nat → List Char → Option (Json × List Char)
  | 0, _ => none
  | fuel+1, cs =>
    match skipWs cs with
    | ']' :: rest => some (.arr [], rest)
    | cs' => parseArrayRest fuel cs' []

/-- Parse array elements (at least one), accumulating in reverse. -/
def parseArrayRest : Nat → List Char → List Json → Option (Json × List Char)
  | 0, _, _ => none
  | fuel+1, cs, acc =>
    match parseValue fuel cs with
    | none => none
    | some (v, rest) =>
      match skipWs rest with
      | ',' :: rest' => parseArrayRest fuel rest' (v :: acc)
      | ']' :: rest' => some (.arr (v :: acc).reverse, rest')
      | _ => none

/-- Parse the remainder of an object, right after the opening brace. -/
def parseObjStart : Nat → List Char → Option (Json × List Char)
  | 0, _ => none
  | fuel+1, cs =>
    match skipWs cs with
    | c :: rest =>
      if c = rbrace then some (.obj [], rest)
      else parseObjRest fuel (c :: rest) []
    | [] => none

/-- Parse object members (at least one), accumulating in reverse.  The
cursor is positioned at the opening quote of the next key. -/
def parseObjRest : Nat → List Char → List (String × Json) → Option (Json × List Char)
  | 0, _, _ => none
  | fuel+1, cs, acc =>
    match cs with
    | '"' :: rest =>
      match parseStringBody (rest.length + 1) rest [] with
      | none => none
      | some (k, rest1) =>
        match skipWs rest1 with
        | ':' :: rest2 =>
          match parseValue fuel rest2 with
          | none => none
          | some (v, rest3) =>
            match skipWs rest3 with
            | ',' :: rest4 => parseObjRest fuel (skipWs rest4) ((k, v) :: acc)
            | c :: rest4 =>
              if c = rbrace then some (.obj ((k, v) :: acc).reverse, rest4)
              else none
            | [] => none
        | _ => none
    | _ => none

end

/-- Go `json.Valid`-style top-level parse: one value, then only trailing
whitespace. -/
def parseJson (s : String) : Option Json :=
  match parseValue (2 * s.data.length + 8) s.data with
  | some (j, rest) => if skipWs rest = [] then some j else none
  | none => none

example : (parseJson "null").isSome = true := by decide
example : (parseJson "\x7b\x7d").isSome = true := by decide
example : (parseJson "[1]").isSome = true := by decide
example : (parseJson "[1.5e-3, \"a\\u0041b\", true]").isSome = true := by decide
example : (parseJson "not json").isSome = false := by decide
example : (parseJson "").isSome = false := by decide
example : (parseJson "\x7b\"ITEMS\":[\x7b\"title\":\"Inception\"\x7d]\x7d").isSome = true := by
  decide

/-! ## The Go struct types of main.go and decoding into them

Decoding follows encoding/json semantics: `null` leaves the target at its
current (zero) value; a JSON object decodes into a struct by matching each
key against the field tags (exact first, then ASCII case-insensitive, which
is what `EqualFold` amounts to on these all-ASCII tags); unknown keys are
ignored; a type mismatch is an error.  Duplicate keys for a slice-typed
field are modelled as replacement (a corner in which encoding/json may
reuse storage; no behaviour relevant to the program depends on it). -/

/-- `type unogsResponse struct` (main.go lines 20-23).  A Go
`map[string]string` is modelled as an association list with unique keys;
the zero value of a field is `""` / the empty list. -/
structure unogsResponse where
  Count : String
  Items : List (List (String × String))
deriving Repr, DecidableEq

/-- `type netflixCountry struct` (main.go lines 33-35). -/
structure netflixCountry where
  Code : String
deriving Repr, DecidableEq

/-- `type netflixLookupResult struct` (main.go lines 29-31). -/
structure netflixLookupResult where
  Country : List netflixCountry
deriving Repr, DecidableEq

/-- `type netflixLookup struct` (main.go lines 25-27). -/
structure netflixLookup where
  Result : netflixLookupResult
deriving Repr, DecidableEq

/-- ASCII lower-casing, for case-insensitive field-tag matching. -/
def asciiLower (c : Char) : Char :=
  if 'A' ≤ c && c ≤ 'Z' then Char.ofNat (c.toNat + 32) else c

/-- encoding/json key-to-tag matching: exact, else case-insensitive. -/
def keyMatches (tag key : String) : Bool :=
  key == tag || key.data.map asciiLower == tag.data.map asciiLower

/-- Go map lookup: a missing key yields the zero value `""`
(`item["title"]`, `item["netflixid"]`, main.go lines 123-124). -/
def mapGet (m : List (String × String)) (k : String) : String :=
  match m.lookup k with
  | some v => v
  | none => ""

/-- Insert into the association-list model of a Go map, overwriting. -/
def mapInsert (m : List (String × String)) (k v : String) : List (String × String) :=
  match m with
  | [] => [(k, v)]
  | (k', v') :: rest => if k' = k then (k, v) :: rest else (k', v') :: mapInsert rest k v

/-- Decode a JSON value into a Go `string`: accepts a string, `null` keeps
the current value, everything else is a type error. -/
def decodeStringInto (cur : String) : Json → Except String String
  | .str s => .ok s
  | .null => .ok cur
  | _ => .error "json: cannot unmarshal value into Go value of type string"

/-- Decode the members of a JSON object into a `map[string]string`. -/
def decodeStringMapFields (acc : List (String × String)) :
    List (String × Json) → Except String (List (String × String))
  | [] => .ok acc
  | (k, v) :: rest =>
    match decodeStringInto "" v with
    | .error e => .error e
    | .ok s => decodeStringMapFields (mapInsert acc k s) rest

/-- Decode a JSON value into a Go `map[string]string` (an `ITEMS` element). -/
def decodeStringMap : Json → Except String (List (String × String))
  | .null => .ok []
  | .obj fields => decodeStringMapFields [] fields
  | _ => .error "json: cannot unmarshal value into Go value of type map[string]string"

/-- Decode a JSON value into `[]map[string]string`. -/
def decodeItemsInto (cur : List (List (String × String))) :
    Json → Except String (List (List (String × String)))
  | .null => .ok cur
  | .arr xs => xs.mapM decodeStringMap
  | _ => .error "json: cannot unmarshal value into Go value of type []map[string]string"

/-- Decode the members of a top-level JSON object into `unogsResponse`. -/
def decodeUnogsFields (acc : unogsResponse) :
    List (String × Json) → Except String unogsResponse
  | [] => .ok acc
  | (k, v) :: rest =>
    if keyMatches "COUNT" k then
      match decodeStringInto acc.Count v with
      | .error e => .error e
      | .ok s => decodeUnogsFields { acc with Count := s } rest
    else if keyMatches "ITEMS" k then
      match decodeItemsInto acc.Items v with
      | .error e => .error e
      | .ok items => decodeUnogsFields { acc with Items := items } rest
    else decodeUnogsFields acc rest

/-- `json.Unmarshal(bytes, &result)` for `result unogsResponse`
(main.go line 117), given an already syntax-checked value. -/
def decodeUnogs : Json → Except String unogsResponse
  | .null => .ok ⟨"", []⟩
  | .obj fields => decodeUnogsFields ⟨"", []⟩ fields
  | _ => .error "json: cannot unmarshal value into Go value of type main.unogsResponse"

/-- Decode the members of a JSON object into `netflixCountry`. -/
def decodeCountryFields (acc : netflixCountry) :
    List (String × Json) → Except String netflixCountry
  | [] => .ok acc
  | (k, v) :: rest =>
    if keyMatches "ccode" k then
      match decodeStringInto acc.Code v with
      | .error e => .error e
      | .ok s => decodeCountryFields ⟨s⟩ rest
    else decodeCountryFields acc rest

/-- Decode a JSON value into `netflixCountry`. -/
def decodeCountry : Json → Except String netflixCountry
  | .null => .ok ⟨""⟩
  | .obj fields => decodeCountryFields ⟨""⟩ fields
  | _ => .error "json: cannot unmarshal value into Go value of type main.netflixCountry"

/-- Decode a JSON value into `[]netflixCountry`. -/
def decodeCountryListInto (cur : List netflixCountry) :
    Json → Except String (List netflixCountry)
  | .null => .ok cur
  | .arr xs => xs.mapM decodeCountry
  | _ => .error "json: cannot unmarshal value into Go value of type []main.netflixCountry"

/-- Decode the members of a JSON object into `netflixLookupResult`. -/
def decodeResultFields (acc : netflixLookupResult) :
    List (String × Json) → Except String netflixLookupResult
  | [] => .ok acc
  | (k, v) :: rest =>
    if keyMatches "country" k then
      match decodeCountryListInto acc.Country v with
      | .error e => .error e
      | .ok cs => decodeResultFields ⟨cs⟩ rest
    else decodeResultFields acc rest

/-- Decode a JSON value into `netflixLookupResult` (in place, like
encoding/json decoding a struct field). -/
def decodeResultInto (cur : netflixLookupResult) : Json → Except String netflixLookupResult
  | .null => .ok cur
  | .obj fields => decodeResultFields cur fields
  | _ => .error "json: cannot unmarshal value into Go value of type main.netflixLookupResult"

/-- Decode the members of a top-level JSON object into `netflixLookup`. -/
def decodeLookupFields (acc : netflixLookup) :
    List (String × Json) → Except String netflixLookup
  | [] => .ok acc
  | (k, v) :: rest =>
    if keyMatches "RESULT" k then
      match decodeResultInto acc.Result v with
      | .error e => .error e
      | .ok r => decodeLookupFields ⟨r⟩ rest
    else decodeLookupFields acc rest

/-- `json.Unmarshal(bytes, &lookup)` for `lookup netflixLookup`
(main.go line 137), given an already syntax-checked value. -/
def decodeLookup : Json → Except String netflixLookup
  | .null => .ok ⟨⟨[]⟩⟩
  | .obj fields => decodeLookupFields ⟨⟨[]⟩⟩ fields
  | _ => .error "json: cannot unmarshal value into Go value of type main.netflixLookup"

/-- The syntax-error message of `json.Unmarshal` (the exact text varies by
position in Go; the program only propagates it inside a wrapped error). -/
def syntaxErrMsg : String := "invalid JSON input"

/-- `json.Unmarshal` into `unogsResponse`: syntax check, then decode. -/
def unmarshalUnogs (body : String) : Except String unogsResponse :=
  match parseJson body with
  | none => .error syntaxErrMsg
  | some j => decodeUnogs j

/-- `json.Unmarshal` into `netflixLookup`: syntax check, then decode. -/
def unmarshalLookup (body : String) : Except String netflixLookup :=
  match parseJson body with
  | none => .error syntaxErrMsg
  | some j => decodeLookup j

example : unmarshalUnogs "null" = .ok ⟨"", []⟩ := by decide
example : unmarshalUnogs "\x7b\x7d" = .ok ⟨"", []⟩ := by decide
example : unmarshalUnogs "\x7b\"COUNT\":\"2\",\"ITEMS\":[\x7b\"title\":\"A\",\"netflixid\":\"9\"\x7d,null]\x7d"
    = .ok ⟨"2", [[("title", "A"), ("netflixid", "9")], []]⟩ := by decide
example : unmarshalUnogs "[1]" = .error "json: cannot unmarshal value into Go value of type main.unogsResponse" := by decide
example : unmarshalUnogs "\x7b\"ITEMS\":0\x7d"
    = .error "json: cannot unmarshal value into Go value of type []map[string]string" := by decide
example : unmarshalUnogs "not json" = .error syntaxErrMsg := by decide
example : unmarshalLookup "\x7b\"RESULT\":\x7b\"country\":[\x7b\"ccode\":\"ca\"\x7d,\x7b\"ccode\":\"us\"\x7d]\x7d\x7d"
    = .ok ⟨⟨[⟨"ca"⟩, ⟨"us"⟩]⟩⟩ := by decide
example : unmarshalLookup "null" = .ok ⟨⟨[]⟩⟩ := by decide

/-! ## Errors, the HTTP client, and the pipeline -/

/-- Go errors as the program observes them: a base error (from the standard
library) or a `github.com/pkg/errors.Wrap` of an inner error with a
context message. -/
inductive GoErr where
  | base (msg : String)
  | wrap (msg : String) (inner : GoErr)
deriving Repr, DecidableEq

/-- What the outside world does to one `GET url` with one API key: the
request may fail to build (`http.NewRequest`), the transport may fail
(`httpClient.Do`), reading the body may fail (`ioutil.ReadAll`), or a
response with some status code and body arrives.  The status code is
carried so that theorems can state that it is never inspected. -/
inductive TransportOutcome where
  | requestErr (msg : String)
  | doErr (msg : String)
  | readErr (msg : String)
  | success (status : Nat) (body : String)
deriving Repr, DecidableEq

/-- The environment: what each `GET` performed with a given URL and API key
results in. -/
abbrev Env := String → String → TransportOutcome

/-- `callUnogs` (main.go lines 164-182).  Besides the result, it returns
the list of URLs on which a network call (`httpClient.Do`) was performed:
none when the request cannot be built, exactly one otherwise. -/
def callUnogs (env : Env) (url apiKey : String) : Except GoErr String × List String :=
  match env url apiKey with
  | .requestErr m => (.error (.wrap "creating request" (.base m)), [])
  | .doErr m => (.error (.base m), [url])
  | .readErr m => (.error (.wrap "reading uNoGS body" (.base m)), [url])
  | .success _ body => (.ok body, [url])

/-- UTF-8 bytes of a character (Go strings are UTF-8 bytes). -/
def utf8Bytes (c : Char) : List Nat :=
  let n := c.toNat
  if n < 0x80 then [n]
  else if n < 0x800 then
    [0xC0 + n / 64, 0x80 + n % 64]
  else if n < 0x10000 then
    [0xE0 + n / 4096, 0x80 + n / 64 % 64, 0x80 + n % 64]
  else
    [0xF0 + n / 262144, 0x80 + n / 4096 % 64, 0x80 + n / 64 % 64, 0x80 + n % 64]

/-- Uppercase hexadecimal digit, as used by Go URL escaping. -/
def hexDigitUpper (n : Nat) : Char :=
  if n < 10 then Char.ofNat (48 + n) else Char.ofNat (55 + n)

/-- Characters `url.QueryEscape` leaves alone: ASCII alphanumerics and
`-`, `_`, `.`, `~`. -/
def queryUnreserved (c : Char) : Bool :=
  c.isAlpha || c.isDigit || c = '-' || c = '_' || c = '.' || c = '~'

/-- Go `url.QueryEscape` (main.go line 107): space becomes `+`, unreserved
characters pass through, every other byte becomes `%XX`. -/
def queryEscape (s : String) : String :=
  String.mk (s.data.foldr
    (fun c acc =>
      if c = ' ' then '+' :: acc
      else if queryUnreserved c then c :: acc
      else (utf8Bytes c).foldr
        (fun b acc2 => '%' :: hexDigitUpper (b / 16) :: hexDigitUpper (b % 16) :: acc2)
        acc)
    [])

/-- The search URL built by `findNetflixID` (main.go lines 104-112). -/
def searchURL (title : String) (year : Int) : String :=
  "https://unogs-unogs-v1.p.rapidapi.com/aaapi.cgi?q=" ++ queryEscape title ++
    "-!" ++ toString year ++ "," ++ toString year ++
    "-!0,5-!0,10-!0-!Any-!Any-!Any-!gt100-!\x7bdownloadable\x7d&t=ns&cl=all&st=adv&ob=Relevance&p=1&sa=and"

/-- The detail-lookup URL built by `findOnNetflixUSA` (main.go line 132). -/
def loadvideoURL (id : String) : String :=
  "https://unogs-unogs-v1.p.rapidapi.com/aaapi.cgi?t=loadvideo&q=" ++ id

/-- The wrapped unmarshal error
`errors.Wrapf(err, "unmarshaling netflix API response: %v", string(bytes))`
(main.go lines 119 and 139): it carries the raw response body. -/
def malformedErr (body msg : String) : GoErr :=
  .wrap ("unmarshaling netflix API response: " ++ body) (.base msg)

/-- The item scan of `findNetflixID` (main.go lines 122-126): return the
`netflixid` of the first item whose `title` equals the (normalized) query
title, else `""`. -/
def scanItems (title : String) : List (List (String × String)) → String
  | [] => ""
  | item :: rest =>
    if mapGet item "title" = title then mapGet item "netflixid" else scanItems title rest

/-- `findNetflixID` (main.go lines 95-129).  The constant regexp always
compiles, so the error branch at line 97 is unreachable and not modelled.
Returns the result together with the list of URLs fetched. -/
def findNetflixID (env : Env) (title : String) (year : Int) (apiKey : String) :
    Except GoErr String × List String :=
  let t := normalize title
  let call := callUnogs env (searchURL t year) apiKey
  match call.1 with
  | .error e => (.error e, call.2)
  | .ok body =>
    match unmarshalUnogs body with
    | .error m => (.error (malformedErr body m), call.2)
    | .ok result => (.ok (scanItems t result.Items), call.2)

/-- The country loop of `findOnNetflixUSA` (main.go lines 142-146): true
exactly when an entry has code `us`. -/
def anyUSA : List netflixCountry → Bool
  | [] => false
  | c :: rest => if c.Code = "us" then true else anyUSA rest

/-- `findOnNetflixUSA` (main.go lines 131-149). -/
def findOnNetflixUSA (env : Env) (id apiKey : String) :
    Except GoErr Bool × List String :=
  let call := callUnogs env (loadvideoURL id) apiKey
  match call.1 with
  | .error e => (.error e, call.2)
  | .ok body =>
    match unmarshalLookup body with
    | .error m => (.error (malformedErr body m), call.2)
    | .ok lookup => (.ok (anyUSA lookup.Result.Country), call.2)

/-- `findOnNetflix` (main.go lines 82-93): resolve the Netflix ID, wrap a
resolution error with context, short-circuit on an empty ID, otherwise
check US availability. -/
def findOnNetflix (env : Env) (title : String) (year : Int) (apiKey : String) :
    Except GoErr Bool × List String :=
  let res := findNetflixID env title year apiKey
  match res.1 with
  | .error e => (.error (.wrap "finding Netflix ID" e), res.2)
  | .ok netflixID =>
    if netflixID = "" then (.ok false, res.2)
    else
      let r := findOnNetflixUSA env netflixID apiKey
      (r.1, res.2 ++ r.2)

/-- An environment that answers every request with one fixed body. -/
def constEnv (body : String) : Env := fun _ _ => .success 200 body

example :
    (findNetflixID
      (constEnv "\x7b\"ITEMS\":[\x7b\"title\":\"Other\",\"netflixid\":\"456\"\x7d,\x7b\"title\":\"Inception\",\"netflixid\":\"123\"\x7d]\x7d")
      "Inception (2010)" 2010 "k").1 = .ok "123" := by decide
example :
    (findOnNetflixUSA
      (constEnv "\x7b\"RESULT\":\x7b\"country\":[\x7b\"ccode\":\"ca\"\x7d,\x7b\"ccode\":\"us\"\x7d]\x7d\x7d")
      "123" "k").1 = .ok true := by decide
example :
    (findOnNetflix (constEnv "\x7b\x7d") "T" 1999 "k") = (.ok false, [searchURL "T" 1999]) := by
  decide
example : queryEscape "Schindlers List" = "Schindlers+List" := by decide
example : searchURL "Inception" 2010 =
    "https://unogs-unogs-v1.p.rapidapi.com/aaapi.cgi?q=Inception-!2010,2010-!0,5-!0,10-!0-!Any-!Any-!Any-!gt100-!\x7bdownloadable\x7d&t=ns&cl=all&st=adv&ob=Relevance&p=1&sa=and" := by
  decide

/-! ## Helper lemmas -/

theorem strMk_data (s : String) : String.mk s.data = s := rfl

theorem dropWhile_self {α : Type} (p : α → Bool) (l : List α) :
    (l.dropWhile p).dropWhile p = l.dropWhile p := by
  induction l with
  | nil => rfl
  | cons a l ih =>
    by_cases h : p a
    · simp [List.dropWhile_cons, h, ih]
    · simp [List.dropWhile_cons, h]

theorem exists_append_dropWhile {α : Type} (p : α → Bool) (l : List α) :
    ∃ u, l = u ++ l.dropWhile p := by
  induction l with
  | nil => exact ⟨[], rfl⟩
  | cons a l ih =>
    by_cases h : p a
    · rcases ih with ⟨u, hu⟩
      refine ⟨a :: u, ?_⟩
      simp only [List.dropWhile_cons, h, if_true, List.cons_append]
      exact congrArg (a :: ·) hu
    · exact ⟨[], by simp [List.dropWhile_cons, h]⟩

theorem head_dropWhile_false {α : Type} (p : α → Bool) (l : List α) {a : α} {t : List α}
    (h : l.dropWhile p = a :: t) : p a = false := by
  induction l with
  | nil => simp [List.dropWhile] at h
  | cons b l ih =>
    by_cases hb : p b
    · rw [List.dropWhile_cons, if_pos hb] at h
      exact ih h
    · rw [List.dropWhile_cons, if_neg hb] at h
      cases h
      simpa using hb

theorem goTrim_idem (l : List Char) : goTrim (goTrim l) = goTrim l := by
  unfold goTrim
  set A := l.dropWhile goIsSpace with hA
  set B := A.reverse.dropWhile goIsSpace with hB
  have h1 : B.reverse.dropWhile goIsSpace = B.reverse := by
    cases hBr : B.reverse with
    | nil => simp
    | cons a t =>
      have hfalse : goIsSpace a = false := by
        rcases exists_append_dropWhile goIsSpace A.reverse with ⟨u, hu⟩
        have hA2 : A = B.reverse ++ u.reverse := by
          have h := congrArg List.reverse hu
          simpa [hB] using h
        rw [hBr] at hA2
        have heq : List.dropWhile goIsSpace l = a :: (t ++ u.reverse) := by
          rw [← hA, hA2]; simp
        exact head_dropWhile_false goIsSpace l heq
      rw [List.dropWhile_cons, if_neg (by simp [hfalse])]
  rw [h1, List.reverse_reverse, hB, dropWhile_self]

theorem mem_goTrim {c : Char} {l : List Char} (h : c ∈ goTrim l) : c ∈ l := by
  unfold goTrim at h
  rw [List.mem_reverse] at h
  rcases exists_append_dropWhile goIsSpace (l.dropWhile goIsSpace).reverse with ⟨u, hu⟩
  have h2 : c ∈ (l.dropWhile goIsSpace).reverse := by
    rw [hu]; exact List.mem_append_right u h
  rw [List.mem_reverse] at h2
  rcases exists_append_dropWhile goIsSpace l with ⟨v, hv⟩
  rw [hv]
  exact List.mem_append_right v h2

theorem isYearEnd_iff (l : List Char) :
    isYearEnd l = true ↔
      ∃ d1 d2 d3 d4, l = ['(', d1, d2, d3, d4, ')'] ∧
        d1.isDigit ∧ d2.isDigit ∧ d3.isDigit ∧ d4.isDigit := by
  rcases l with _ | ⟨c0, _ | ⟨c1, _ | ⟨c2, _ | ⟨c3, _ | ⟨c4, _ | ⟨c5, _ | ⟨c6, t⟩⟩⟩⟩⟩⟩⟩ <;>
    simp only [isYearEnd, Bool.and_eq_true, beq_iff_eq]
  · simp
  · simp
  · simp
  · simp
  · simp
  · simp
  · constructor
    · rintro ⟨⟨⟨⟨⟨h0, h1⟩, h2⟩, h3⟩, h4⟩, h5⟩
      exact ⟨c1, c2, c3, c4, by rw [h0, h5], h1, h2, h3, h4⟩
    · rintro ⟨d1, d2, d3, d4, heq, h1, h2, h3, h4⟩
      injection heq with e0 heq; injection heq with e1 heq; injection heq with e2 heq
      injection heq with e3 heq; injection heq with e4 heq; injection heq with e5 _
      subst e0; subst e1; subst e2; subst e3; subst e4; subst e5
      exact ⟨⟨⟨⟨⟨rfl, h1⟩, h2⟩, h3⟩, h4⟩, rfl⟩
  · simp

theorem hasYearSuffix_iff (s : List Char) :
    hasYearSuffix s = true ↔
      ∃ t d1 d2 d3 d4, s = t ++ ['(', d1, d2, d3, d4, ')'] ∧
        d1.isDigit ∧ d2.isDigit ∧ d3.isDigit ∧ d4.isDigit := by
  constructor
  · intro h
    unfold hasYearSuffix at h
    rcases (isYearEnd_iff _).mp h with ⟨d1, d2, d3, d4, heq, h1, h2, h3, h4⟩
    exact ⟨s.take (s.length - 6), d1, d2, d3, d4,
      by rw [← heq, List.take_append_drop], h1, h2, h3, h4⟩
  · rintro ⟨t, d1, d2, d3, d4, heq, h1, h2, h3, h4⟩
    unfold hasYearSuffix
    have hlen : s.length - 6 = t.length := by
      rw [heq, List.length_append]; simp
    rw [hlen, heq, List.drop_left]
    exact (isYearEnd_iff _).mpr ⟨d1, d2, d3, d4, rfl, h1, h2, h3, h4⟩

theorem stripYear_of_suffix {s t : List Char} {d1 d2 d3 d4 : Char}
    (heq : s = t ++ ['(', d1, d2, d3, d4, ')'])
    (h1 : d1.isDigit) (h2 : d2.isDigit) (h3 : d3.isDigit) (h4 : d4.isDigit) :
    stripYear s = t := by
  unfold stripYear
  rw [if_pos ((hasYearSuffix_iff s).mpr ⟨t, d1, d2, d3, d4, heq, h1, h2, h3, h4⟩)]
  have hlen : s.length - 6 = t.length := by
    rw [heq, List.length_append]; simp
  rw [hlen, heq, List.take_left]

theorem stripYear_of_no_suffix {s : List Char} (h : hasYearSuffix s = false) :
    stripYear s = s := by
  unfold stripYear
  rw [h]
  simp

theorem scanItems_split (t : String) (l : List (List (String × String))) :
    ((∀ m ∈ l, mapGet m "title" ≠ t) ∧ scanItems t l = "") ∨
    (∃ pre item post, l = pre ++ item :: post ∧
      (∀ m ∈ pre, mapGet m "title" ≠ t) ∧ mapGet item "title" = t ∧
      scanItems t l = mapGet item "netflixid") := by
  induction l with
  | nil => exact Or.inl ⟨by simp, rfl⟩
  | cons a l ih =>
    by_cases h : mapGet a "title" = t
    · exact Or.inr ⟨[], a, l, by simp, by simp, h, by simp [scanItems, h]⟩
    · rcases ih with ⟨hall, heq⟩ | ⟨pre, item, post, hsplit, hpre, hmatch, heq⟩
      · refine Or.inl ⟨?_, by simp [scanItems, h, heq]⟩
        intro m hm
        rcases List.mem_cons.mp hm with rfl | hm
        · exact h
        · exact hall m hm
      · refine Or.inr ⟨a :: pre, item, post, by simp [hsplit], ?_, hmatch,
          by simp [scanItems, h, heq]⟩
        intro m hm
        rcases List.mem_cons.mp hm with rfl | hm
        · exact h
        · exact hpre m hm

theorem scanItems_first (t : String) (pre : List (List (String × String)))
    (item : List (String × String)) (post : List (List (String × String)))
    (hpre : ∀ m ∈ pre, mapGet m "title" ≠ t) (hmatch : mapGet item "title" = t) :
    scanItems t (pre ++ item :: post) = mapGet item "netflixid" := by
  induction pre with
  | nil => simp [scanItems, hmatch]
  | cons a pre ih =>
    have ha : mapGet a "title" ≠ t := hpre a (by simp)
    rw [List.cons_append]
    show (if mapGet a "title" = t then mapGet a "netflixid"
      else scanItems t (pre ++ item :: post)) = mapGet item "netflixid"
    rw [if_neg ha]
    exact ih (fun m hm => hpre m (by simp [hm]))

theorem anyUSA_iff (l : List netflixCountry) :
    anyUSA l = true ↔ ∃ c ∈ l, c.Code = "us" := by
  induction l with
  | nil => simp [anyUSA]
  | cons a l ih =>
    by_cases h : a.Code = "us" <;> simp [anyUSA, h, ih]

theorem callUnogs_snd_mem (env : Env) (url apiKey : String) :
    ∀ u ∈ (callUnogs env url apiKey).2, u = url := by
  unfold callUnogs
  cases env url apiKey <;> simp

theorem findNetflixID_ok (env : Env) (title : String) (year : Int) (apiKey : String)
    (st : Nat) (body : String) (resp : unogsResponse)
    (henv : env (searchURL (normalize title) year) apiKey = .success st body)
    (hun : unmarshalUnogs body = .ok resp) :
    findNetflixID env title year apiKey =
      (.ok (scanItems (normalize title) resp.Items), [searchURL (normalize title) year]) := by
  simp only [findNetflixID, callUnogs, henv, hun]

theorem findNetflixID_unmarshal_err (env : Env) (title : String) (year : Int)
    (apiKey : String) (st : Nat) (body m : String)
    (henv : env (searchURL (normalize title) year) apiKey = .success st body)
    (hun : unmarshalUnogs body = .error m) :
    findNetflixID env title year apiKey =
      (.error (malformedErr body m), [searchURL (normalize title) year]) := by
  simp only [findNetflixID, callUnogs, henv, hun]

theorem findNetflixID_snd (env : Env) (title : String) (year : Int) (apiKey : String) :
    (findNetflixID env title year apiKey).2 =
      (callUnogs env (searchURL (normalize title) year) apiKey).2 := by
  unfold findNetflixID
  cases h : (callUnogs env (searchURL (normalize title) year) apiKey).1 with
  | error e => simp [h]
  | ok body => cases hu : unmarshalUnogs body <;> simp [h, hu]

theorem findNetflixID_snd_mem (env : Env) (title : String) (year : Int) (apiKey : String) :
    ∀ u ∈ (findNetflixID env title year apiKey).2, u = searchURL (normalize title) year := by
  rw [findNetflixID_snd]
  exact callUnogs_snd_mem env (searchURL (normalize title) year) apiKey

theorem findOnNetflixUSA_ok (env : Env) (id apiKey : String) (st : Nat) (body : String)
    (lookup : netflixLookup)
    (henv : env (loadvideoURL id) apiKey = .success st body)
    (hun : unmarshalLookup body = .ok lookup) :
    findOnNetflixUSA env id apiKey =
      (.ok (anyUSA lookup.Result.Country), [loadvideoURL id]) := by
  simp only [findOnNetflixUSA, callUnogs, henv, hun]

theorem findOnNetflixUSA_unmarshal_err (env : Env) (id apiKey : String) (st : Nat)
    (body m : String)
    (henv : env (loadvideoURL id) apiKey = .success st body)
    (hun : unmarshalLookup body = .error m) :
    findOnNetflixUSA env id apiKey =
      (.error (malformedErr body m), [loadvideoURL id]) := by
  simp only [findOnNetflixUSA, callUnogs, henv, hun]

theorem findOnNetflix_of_empty (env : Env) (title : String) (year : Int) (apiKey : String)
    (h : (findNetflixID env title year apiKey).1 = .ok "") :
    findOnNetflix env title year apiKey =
      (.ok false, (findNetflixID env title year apiKey).2) := by
  unfold findOnNetflix
  simp [h]

theorem findOnNetflix_of_err (env : Env) (title : String) (year : Int) (apiKey : String)
    (e : GoErr) (h : (findNetflixID env title year apiKey).1 = .error e) :
    findOnNetflix env title year apiKey =
      (.error (.wrap "finding Netflix ID" e), (findNetflixID env title year apiKey).2) := by
  unfold findOnNetflix
  simp [h]

theorem findNetflixID_ok_of_result (env : Env) (title : String) (year : Int)
    (apiKey : String) (st : Nat) (body : String) (resp : unogsResponse)
    (henv : env (searchURL (normalize title) year) apiKey = .success st body)
    (hun : unmarshalUnogs body = .ok resp) :
    (findNetflixID env title year apiKey).1 = .ok (scanItems (normalize title) resp.Items) := by
  rw [findNetflixID_ok env title year apiKey st body resp henv hun]

/-! ## Claim theorems -/

/-- C1: for every search response, `findNetflixID` scans the returned items
in order and returns the `netflixid` of the first item whose `title` equals
the normalized query title byte-exactly; it never takes an identifier from
a non-matching item, and when no item matches (including an empty item
list) it returns the empty identifier with no error. -/
theorem findNetflixID_first_exact_match (env : Env) (title : String) (year : Int)
    (apiKey : String) (st : Nat) (body : String) (resp : unogsResponse)
    (henv : env (searchURL (normalize title) year) apiKey = .success st body)
    (hun : unmarshalUnogs body = .ok resp) :
    ((∀ m ∈ resp.Items, mapGet m "title" ≠ normalize title) ∧
      (findNetflixID env title year apiKey).1 = .ok "") ∨
    (∃ pre item post, resp.Items = pre ++ item :: post ∧
      (∀ m ∈ pre, mapGet m "title" ≠ normalize title) ∧
      mapGet item "title" = normalize title ∧
      (findNetflixID env title year apiKey).1 = .ok (mapGet item "netflixid")) := by
  have hval := findNetflixID_ok_of_result env title year apiKey st body resp henv hun
  rcases scanItems_split (normalize title) resp.Items with
    ⟨hall, heq⟩ | ⟨pre, item, post, hsplit, hpre, hmatch, heq⟩
  · exact Or.inl ⟨hall, by rw [hval, heq]⟩
  · exact Or.inr ⟨pre, item, post, hsplit, hpre, hmatch, by rw [hval, heq]⟩

/-- A two-item search response used as a witness input. -/
def bodyTwoItems : String :=
  "\x7b\"ITEMS\":[\x7b\"title\":\"Other\",\"netflixid\":\"456\"\x7d,\x7b\"title\":\"Inception\",\"netflixid\":\"123\"\x7d]\x7d"

/-- The parse of `bodyTwoItems`. -/
def respTwoItems : unogsResponse :=
  ⟨"", [[("title", "Other"), ("netflixid", "456")], [("title", "Inception"), ("netflixid", "123")]]⟩

/-- Witness for C1 on a concrete two-item response. -/
theorem findNetflixID_first_exact_match_witness :
    ((∀ m ∈ respTwoItems.Items, mapGet m "title" ≠ normalize "Inception (2010)") ∧
      (findNetflixID (constEnv bodyTwoItems) "Inception (2010)" 2010 "k").1 = .ok "") ∨
    (∃ pre item post, respTwoItems.Items = pre ++ item :: post ∧
      (∀ m ∈ pre, mapGet m "title" ≠ normalize "Inception (2010)") ∧
      mapGet item "title" = normalize "Inception (2010)" ∧
      (findNetflixID (constEnv bodyTwoItems) "Inception (2010)" 2010 "k").1 =
        .ok (mapGet item "netflixid")) :=
  findNetflixID_first_exact_match (constEnv bodyTwoItems) "Inception (2010)" 2010 "k"
    200 bodyTwoItems respTwoItems rfl (by decide)

/-- C2 is false as stated: normalization is not idempotent.  For the input
`A (2000) ` (trailing space) the first pass only trims the space, leaving a
trailing year suffix that a second pass removes. -/
theorem normalize_not_idempotent :
    ¬ (normalize (normalize "A (2000) ") = normalize "A (2000) ") := by decide

/-- C2 (amended): normalization is idempotent on every input whose
normalized form does not itself end in a parenthesized 4-digit year
suffix. -/
theorem normalize_idem_of_no_trailing_year (x : String)
    (h : hasYearSuffix (normalize x).data = false) :
    normalize (normalize x) = normalize x := by
  have hdata : (normalize x).data = goTrim (removeApos (stripYear x.data)) := rfl
  have h1 : stripYear (normalize x).data = (normalize x).data := stripYear_of_no_suffix h
  have h2 : removeApos (normalize x).data = (normalize x).data := by
    unfold removeApos
    apply List.filter_eq_self.mpr
    intro c hc
    rw [hdata] at hc
    have hmem := mem_goTrim hc
    unfold removeApos at hmem
    exact (List.mem_filter.mp hmem).2
  have h3 : goTrim (normalize x).data = (normalize x).data := by
    rw [hdata, goTrim_idem]
  show String.mk (goTrim (removeApos (stripYear (normalize x).data))) = normalize x
  rw [h1, h2, h3]

/-- Witness for the amended C2. -/
theorem normalize_idem_of_no_trailing_year_witness :
    hasYearSuffix (normalize "Inception (2010)").data = false ∧
    normalize (normalize "Inception (2010)") = normalize "Inception (2010)" :=
  ⟨by decide, normalize_idem_of_no_trailing_year "Inception (2010)" (by decide)⟩

/-- C3: `normalize` removes a trailing parenthesized exactly-4-digit year
suffix anchored at the end when present (first conjunct; when absent the
suffix-stripping step is the identity, second conjunct), removes every
apostrophe (third conjunct), returns a whitespace-trimmed string (fourth
conjunct), and is a pure total function with the four stated example
values. -/
theorem normalize_spec (s : String) :
    (∀ t d1 d2 d3 d4, s.data = t ++ ['(', d1, d2, d3, d4, ')'] →
      d1.isDigit → d2.isDigit → d3.isDigit → d4.isDigit →
      normalize s = String.mk (goTrim (removeApos t))) ∧
    ((∀ t d1 d2 d3 d4, s.data = t ++ ['(', d1, d2, d3, d4, ')'] →
      ¬(d1.isDigit ∧ d2.isDigit ∧ d3.isDigit ∧ d4.isDigit)) →
      normalize s = String.mk (goTrim (removeApos s.data))) ∧
    (∀ c ∈ (normalize s).data, c ≠ apos) ∧
    goTrim (normalize s).data = (normalize s).data ∧
    normalize "" = "" ∧
    normalize "Inception (2010)" = "Inception" ∧
    normalize schindlersRaw = "Schindlers List" ∧
    normalize "Plain Title" = "Plain Title" := by
  refine ⟨?_, ?_, ?_, ?_, by decide, by decide, by decide, by decide⟩
  · intro t d1 d2 d3 d4 heq h1 h2 h3 h4
    show String.mk (goTrim (removeApos (stripYear s.data))) = String.mk (goTrim (removeApos t))
    rw [stripYear_of_suffix heq h1 h2 h3 h4]
  · intro hno
    show String.mk (goTrim (removeApos (stripYear s.data))) =
      String.mk (goTrim (removeApos s.data))
    cases hy : hasYearSuffix s.data with
    | false => rw [stripYear_of_no_suffix hy]
    | true =>
      rcases (hasYearSuffix_iff s.data).mp hy with ⟨t, d1, d2, d3, d4, heq, h1, h2, h3, h4⟩
      exact absurd ⟨h1, h2, h3, h4⟩ (hno t d1 d2 d3 d4 heq)
  · intro c hc
    have hmem := mem_goTrim hc
    unfold removeApos at hmem
    have := (List.mem_filter.mp hmem).2
    simpa using this
  · have hdata : (normalize s).data = goTrim (removeApos (stripYear s.data)) := rfl
    rw [hdata, goTrim_idem]

/-- Witness for C3: the year-stripping conjunct applied to a concrete
decomposition of `Inception (2010)`. -/
theorem normalize_spec_witness :
    normalize "Inception (2010)" = String.mk (goTrim (removeApos "Inception ".data)) :=
  (normalize_spec "Inception (2010)").1 "Inception ".data '2' '0' '1' '0'
    (by decide) (by decide) (by decide) (by decide) (by decide)

/-- C4: when identifier resolution succeeds with the empty identifier,
`findOnNetflix` returns `(false, nil)` and performs no detail-lookup call:
its call log is exactly the resolution log, in which every fetched URL is
the search URL. -/
theorem findOnNetflix_empty_id_short_circuit (env : Env) (title : String) (year : Int)
    (apiKey : String) (h : (findNetflixID env title year apiKey).1 = .ok "") :
    findOnNetflix env title year apiKey =
      (.ok false, (findNetflixID env title year apiKey).2) ∧
    ∀ u ∈ (findOnNetflix env title year apiKey).2, u = searchURL (normalize title) year := by
  have heq := findOnNetflix_of_empty env title year apiKey h
  refine ⟨heq, ?_⟩
  rw [heq]
  exact fun u hu => findNetflixID_snd_mem env title year apiKey u hu

/-- Witness for C4: an empty-object response resolves to the empty
identifier and short-circuits. -/
theorem findOnNetflix_empty_id_short_circuit_witness :
    findOnNetflix (constEnv "\x7b\x7d") "T" 1999 "k" =
      (.ok false, (findNetflixID (constEnv "\x7b\x7d") "T" 1999 "k").2) ∧
    ∀ u ∈ (findOnNetflix (constEnv "\x7b\x7d") "T" 1999 "k").2,
      u = searchURL (normalize "T") 1999 :=
  findOnNetflix_empty_id_short_circuit (constEnv "\x7b\x7d") "T" 1999 "k" (by decide)

/-- A detail response listing countries `ca` and `us`. -/
def bodyCaUs : String :=
  "\x7b\"RESULT\":\x7b\"country\":[\x7b\"ccode\":\"ca\"\x7d,\x7b\"ccode\":\"us\"\x7d]\x7d\x7d"

/-- A detail response listing only country `ca`. -/
def bodyCa : String := "\x7b\"RESULT\":\x7b\"country\":[\x7b\"ccode\":\"ca\"\x7d]\x7d\x7d"

/-- C5: for every successfully parsed detail response, `findOnNetflixUSA`
returns true iff some entry of `RESULT.country` has `ccode` equal to the
fixed region code `us`; in particular true for the ca/us response and
false for the ca-only response. -/
theorem findOnNetflixUSA_us_iff (env : Env) (id apiKey : String) (st : Nat)
    (body : String) (lookup : netflixLookup)
    (henv : env (loadvideoURL id) apiKey = .success st body)
    (hun : unmarshalLookup body = .ok lookup) :
    ((findOnNetflixUSA env id apiKey).1 = .ok true ↔
      ∃ c ∈ lookup.Result.Country, c.Code = "us") ∧
    (findOnNetflixUSA (constEnv bodyCaUs) "1" "k").1 = .ok true ∧
    (findOnNetflixUSA (constEnv bodyCa) "1" "k").1 = .ok false := by
  refine ⟨?_, by decide, by decide⟩
  rw [findOnNetflixUSA_ok env id apiKey st body lookup henv hun]
  simp [anyUSA_iff]

/-- Witness for C5 on the concrete ca/us detail response. -/
theorem findOnNetflixUSA_us_iff_witness :
    ((findOnNetflixUSA (constEnv bodyCaUs) "1" "k").1 = .ok true ↔
      ∃ c ∈ (netflixLookup.mk ⟨[⟨"ca"⟩, ⟨"us"⟩]⟩).Result.Country, c.Code = "us") ∧
    (findOnNetflixUSA (constEnv bodyCaUs) "1" "k").1 = .ok true ∧
    (findOnNetflixUSA (constEnv bodyCa) "1" "k").1 = .ok false :=
  findOnNetflixUSA_us_iff (constEnv bodyCaUs) "1" "k" 200 bodyCaUs
    ⟨⟨[⟨"ca"⟩, ⟨"us"⟩]⟩⟩ rfl (by decide)

/-- C6: when identifier resolution fails with any error, `findOnNetflix`
returns that error wrapped with the context `finding Netflix ID`, and the
availability stage is never invoked: the call log is the resolution log,
every URL of which is the search URL. -/
theorem findOnNetflix_wraps_resolution_error (env : Env) (title : String) (year : Int)
    (apiKey : String) (e : GoErr)
    (h : (findNetflixID env title year apiKey).1 = .error e) :
    findOnNetflix env title year apiKey =
      (.error (.wrap "finding Netflix ID" e), (findNetflixID env title year apiKey).2) ∧
    ∀ u ∈ (findOnNetflix env title year apiKey).2, u = searchURL (normalize title) year := by
  have heq := findOnNetflix_of_err env title year apiKey e h
  refine ⟨heq, ?_⟩
  rw [heq]
  exact fun u hu => findNetflixID_snd_mem env title year apiKey u hu

/-- An environment in which every transport call fails. -/
def failEnv : Env := fun _ _ => .doErr "connection refused"

/-- Witness for C6 under a failing transport. -/
theorem findOnNetflix_wraps_resolution_error_witness :
    findOnNetflix failEnv "T" 1999 "k" =
      (.error (.wrap "finding Netflix ID" (.base "connection refused")),
        (findNetflixID failEnv "T" 1999 "k").2) ∧
    ∀ u ∈ (findOnNetflix failEnv "T" 1999 "k").2, u = searchURL (normalize "T") 1999 :=
  findOnNetflix_wraps_resolution_error failEnv "T" 1999 "k" (.base "connection refused")
    (by decide)

/-- C7: whenever a response body fails to unmarshal as the expected JSON
shape, the resolver and the availability checker both fail with the
wrapped unmarshal error carrying the raw body, returning no identifier and
no availability value. -/
theorem malformed_response_carries_body (env : Env) (title : String) (year : Int)
    (apiKey id : String) (st st' : Nat) (body body' m m' : String)
    (henv : env (searchURL (normalize title) year) apiKey = .success st body)
    (hun : unmarshalUnogs body = .error m)
    (henv' : env (loadvideoURL id) apiKey = .success st' body')
    (hun' : unmarshalLookup body' = .error m') :
    (findNetflixID env title year apiKey).1 = .error (malformedErr body m) ∧
    (findOnNetflixUSA env id apiKey).1 = .error (malformedErr body' m') := by
  constructor
  · rw [findNetflixID_unmarshal_err env title year apiKey st body m henv hun]
  · rw [findOnNetflixUSA_unmarshal_err env id apiKey st' body' m' henv' hun']

/-- Witness for C7 on the unparseable body `not json`. -/
theorem malformed_response_carries_body_witness :
    (findNetflixID (constEnv "not json") "T" 1999 "k").1 =
      .error (malformedErr "not json" syntaxErrMsg) ∧
    (findOnNetflixUSA (constEnv "not json") "9" "k").1 =
      .error (malformedErr "not json" syntaxErrMsg) :=
  malformed_response_carries_body (constEnv "not json") "T" 1999 "k" "9" 200 200
    "not json" "not json" syntaxErrMsg syntaxErrMsg rfl (by decide) rfl (by decide)

/-- C8: `callUnogs` fails exactly when request construction, the transport
call, or the body read fails (each with its context wrapping); on success
it returns the body bytes for any HTTP status code, performing no
status-code inspection. -/
theorem callUnogs_spec (env : Env) (url apiKey : String) :
    (∀ st body, env url apiKey = .success st body →
      callUnogs env url apiKey = (.ok body, [url])) ∧
    (∀ m, env url apiKey = .requestErr m →
      callUnogs env url apiKey = (.error (.wrap "creating request" (.base m)), [])) ∧
    (∀ m, env url apiKey = .doErr m →
      callUnogs env url apiKey = (.error (.base m), [url])) ∧
    (∀ m, env url apiKey = .readErr m →
      callUnogs env url apiKey = (.error (.wrap "reading uNoGS body" (.base m)), [url])) ∧
    ((∃ e log, callUnogs env url apiKey = (.error e, log)) ↔
      ¬ ∃ st body, env url apiKey = .success st body) := by
  refine ⟨?_, ?_, ?_, ?_, ?_⟩
  · intro st body h; unfold callUnogs; rw [h]
  · intro m h; unfold callUnogs; rw [h]
  · intro m h; unfold callUnogs; rw [h]
  · intro m h; unfold callUnogs; rw [h]
  · cases h : env url apiKey <;> simp [callUnogs, h]

/-- Witness for C8: a body delivered with a non-2xx status code is still
returned without error. -/
theorem callUnogs_spec_witness :
    callUnogs (fun _ _ => .success 404 "oops") "u" "k" = (.ok "oops", ["u"]) :=
  (callUnogs_spec (fun _ _ => .success 404 "oops") "u" "k").1 404 "oops" rfl

/-- C9: when the first title-matching item lacks a `netflixid` key or maps
it to the empty string, the resolver returns the empty identifier with no
error, and `findOnNetflix` reports `(false, nil)`. -/
theorem empty_netflixid_reports_not_found (env : Env) (title : String) (year : Int)
    (apiKey : String) (st : Nat) (body : String) (resp : unogsResponse)
    (pre : List (List (String × String))) (item : List (String × String))
    (post : List (List (String × String)))
    (henv : env (searchURL (normalize title) year) apiKey = .success st body)
    (hun : unmarshalUnogs body = .ok resp)
    (hsplit : resp.Items = pre ++ item :: post)
    (hpre : ∀ m ∈ pre, mapGet m "title" ≠ normalize title)
    (hmatch : mapGet item "title" = normalize title)
    (hid : mapGet item "netflixid" = "") :
    (findNetflixID env title year apiKey).1 = .ok "" ∧
    (findOnNetflix env title year apiKey).1 = .ok false := by
  have h1 : (findNetflixID env title year apiKey).1 = .ok "" := by
    rw [findNetflixID_ok_of_result env title year apiKey st body resp henv hun,
      hsplit, scanItems_first (normalize title) pre item post hpre hmatch, hid]
  refine ⟨h1, ?_⟩
  rw [findOnNetflix_of_empty env title year apiKey h1]

/-- A search response whose only item matches but has no `netflixid` key. -/
def bodyNoID : String := "\x7b\"ITEMS\":[\x7b\"title\":\"X\"\x7d]\x7d"

/-- Witness for C9: the matching item has no `netflixid` key. -/
theorem empty_netflixid_reports_not_found_witness :
    (findNetflixID (constEnv bodyNoID) "X" 2001 "k").1 = .ok "" ∧
    (findOnNetflix (constEnv bodyNoID) "X" 2001 "k").1 = .ok false :=
  empty_netflixid_reports_not_found (constEnv bodyNoID) "X" 2001 "k" 200 bodyNoID
    ⟨"", [[("title", "X")]]⟩ [] [("title", "X")] [] rfl (by decide) rfl
    (by simp) (by decide) (by decide)

/-- C10 is false as stated: `[1]` is syntactically valid JSON, yet the
resolver fails with the wrapped unmarshal (malformed-response) error, so
that error is not raised only on syntactically invalid JSON. -/
theorem malformed_error_on_valid_json :
    (parseJson "[1]").isSome = true ∧
    (findNetflixID (constEnv "[1]") "T" 2000 "k").1 =
      .error (malformedErr "[1]"
        "json: cannot unmarshal value into Go value of type main.unogsResponse") :=
  ⟨by decide, by decide⟩

/-- C10 (amended): the malformed-response error is raised exactly when the
body fails to unmarshal into the expected shape — invalid JSON syntax or
well-formed JSON of the wrong type — while syntactically valid JSON that
merely lacks the expected fields (such as an empty object or `null`)
unmarshals to zero values, so the resolver returns the empty identifier
and the checker returns false, with no error. -/
theorem unmarshal_error_iff (env : Env) (title : String) (year : Int)
    (apiKey id : String) (st st' : Nat) (body body' : String)
    (henv : env (searchURL (normalize title) year) apiKey = .success st body)
    (henv' : env (loadvideoURL id) apiKey = .success st' body') :
    ((∃ m, (findNetflixID env title year apiKey).1 = .error (malformedErr body m)) ↔
      ∃ m, unmarshalUnogs body = .error m) ∧
    ((∃ m, (findOnNetflixUSA env id apiKey).1 = .error (malformedErr body' m)) ↔
      ∃ m, unmarshalLookup body' = .error m) ∧
    unmarshalUnogs "\x7b\x7d" = .ok ⟨"", []⟩ ∧
    unmarshalUnogs "null" = .ok ⟨"", []⟩ ∧
    unmarshalLookup "\x7b\x7d" = .ok ⟨⟨[]⟩⟩ ∧
    unmarshalLookup "null" = .ok ⟨⟨[]⟩⟩ ∧
    (findNetflixID (constEnv "\x7b\x7d") title year apiKey).1 = .ok "" ∧
    (findOnNetflixUSA (constEnv "null") id apiKey).1 = .ok false := by
  refine ⟨?_, ?_, by decide, by decide, by decide, by decide, ?_, ?_⟩
  · constructor
    · rintro ⟨m, hm⟩
      cases hu : unmarshalUnogs body with
      | error m' => exact ⟨m', rfl⟩
      | ok resp =>
        rw [findNetflixID_ok_of_result env title year apiKey st body resp henv hu] at hm
        simp at hm
    · rintro ⟨m, hm⟩
      exact ⟨m, by rw [findNetflixID_unmarshal_err env title year apiKey st body m henv hm]⟩
  · constructor
    · rintro ⟨m, hm⟩
      cases hu : unmarshalLookup body' with
      | error m' => exact ⟨m', rfl⟩
      | ok lookup =>
        rw [findOnNetflixUSA_ok env id apiKey st' body' lookup henv' hu] at hm
        simp at hm
    · rintro ⟨m, hm⟩
      exact ⟨m, by rw [findOnNetflixUSA_unmarshal_err env id apiKey st' body' m henv' hm]⟩
  · rw [findNetflixID_ok_of_result (constEnv "\x7b\x7d") title year apiKey 200 "\x7b\x7d"
      ⟨"", []⟩ rfl (by decide)]
    rfl
  · rw [findOnNetflixUSA_ok (constEnv "null") id apiKey 200 "null" ⟨⟨[]⟩⟩ rfl (by decide)]
    rfl

/-- Witness for the amended C10 on the valid-but-wrong-shape body `[1]`. -/
theorem unmarshal_error_iff_witness :
    ((∃ m, (findNetflixID (constEnv "[1]") "T" 2000 "k").1 = .error (malformedErr "[1]" m)) ↔
      ∃ m, unmarshalUnogs "[1]" = .error m) ∧
    ((∃ m, (findOnNetflixUSA (constEnv "[1]") "9" "k").1 = .error (malformedErr "[1]" m)) ↔
      ∃ m, unmarshalLookup "[1]" = .error m) ∧
    unmarshalUnogs "\x7b\x7d" = .ok ⟨"", []⟩ ∧
    unmarshalUnogs "null" = .ok ⟨"", []⟩ ∧
    unmarshalLookup "\x7b\x7d" = .ok ⟨⟨[]⟩⟩ ∧
    unmarshalLookup "null" = .ok ⟨⟨[]⟩⟩ ∧
    (findNetflixID (constEnv "\x7b\x7d") "T" 2000 "k").1 = .ok "" ∧
    (findOnNetflixUSA (constEnv "null") "9" "k").1 = .ok false :=
  unmarshal_error_iff (constEnv "[1]") "T" 2000 "k" "9" 200 200 "[1]" "[1]" rfl rfl

end P2N
